import Mathlib

/-!
Verification development for the PinCeR OCI registry (TypeScript sources under
`src/`).  The JSON data handled by the registry is modelled by the inductive
`JVal`; JavaScript objects and `Map`s are modelled as ordered association
lists, matching JS insertion-order semantics.  External collaborators that the
source only calls (SHA-256 from node `crypto`, `JSON.parse`, CAR packing from
`car-utils.ts`/multiformats, and the IPFS gateway fetch) are abstracted as
function parameters, as the spec treats them as opaque interfaces.
-/

namespace Pincer

/-- A JSON value, as produced by `JSON.parse` and stored in the mapping file.
Matches the shapes the TypeScript source manipulates (`Record<string, any>`). -/
inductive JVal where
  | str (s : String)
  | num (n : Int)
  | bool (b : Bool)
  | null
  | arr (elems : List JVal)
  | obj (fields : List (String × JVal))

/-- JavaScript truthiness of a `JVal` (`if (x)` in the source):
empty strings, `0`, `false` and `null` are falsy; objects and arrays truthy. -/
def JVal.truthy : JVal → Bool
  | .str s => s ≠ ""
  | .num n => n ≠ 0
  | .bool b => b
  | .null => false
  | .arr _ => true
  | .obj _ => true

/-- First-match lookup in an ordered association list (JS property access). -/
def alGet {α : Type} (l : List (String × α)) (k : String) : Option α :=
  match l with
  | [] => none
  | (k2, v) :: rest => if k2 = k then some v else alGet rest k

/-- JS property assignment `o[k] = v`: replaces the value in place if the key
is present (keeping its position, as JS objects do), else appends at the end. -/
def alSet {α : Type} (l : List (String × α)) (k : String) (v : α) : List (String × α) :=
  match l with
  | [] => [(k, v)]
  | (k2, v2) :: rest => if k2 = k then (k2, v) :: rest else (k2, v2) :: alSet rest k v

/-- JS `Map.delete` / `delete o[k]`: removes the first binding of `k`. -/
def alDel {α : Type} (l : List (String × α)) (k : String) : List (String × α) :=
  match l with
  | [] => []
  | (k2, v2) :: rest => if k2 = k then rest else (k2, v2) :: alDel rest k

theorem alGet_alSet_self {α : Type} (l : List (String × α)) (k : String) (v : α) :
    alGet (alSet l k v) k = some v := by
  induction l with
  | nil => simp [alGet, alSet]
  | cons hd tl ih =>
    obtain ⟨k2, v2⟩ := hd
    by_cases h : k2 = k <;> simp [alGet, alSet, h, ih]

theorem alGet_alSet_ne {α : Type} (l : List (String × α)) (k k2 : String) (v : α)
    (h : k ≠ k2) : alGet (alSet l k v) k2 = alGet l k2 := by
  induction l with
  | nil => simp [alGet, alSet, h]
  | cons hd tl ih =>
    obtain ⟨k3, v3⟩ := hd
    by_cases h3 : k3 = k
    · subst h3
      simp [alGet, alSet, h]
    · simp [alGet, alSet, h3, ih]

/-- A JSON object: ordered list of fields, mirroring a JS object. -/
abbrev JObj := List (String × JVal)

/-- Field access on a JSON object. -/
def jGet (o : JObj) (k : String) : Option JVal := alGet o k

/-- Field assignment on a JSON object. -/
def jSet (o : JObj) (k : String) (v : JVal) : JObj := alSet o k v

/-- Field access `x.k` on an arbitrary JSON value: `undefined` (here `none`)
unless `x` is an object with the field. -/
def jsField (v : JVal) (k : String) : Option JVal :=
  match v with
  | .obj fs => jGet fs k
  | _ => none

/-- JS `s.startsWith(p)`, as a prefix test on the character data. -/
def jsStartsWith (s p : String) : Bool := p.data.isPrefixOf s.data

/-- JS `s.substring(n)` (code points; the source only applies it to ASCII). -/
def jsSubstring (s : String) (n : Nat) : String := String.mk (s.data.drop n)

/-- Replace the first occurrence of `pat` in a character list by `repl`,
leaving the list unchanged when `pat` does not occur. -/
def replaceOnceAux (pat repl : List Char) : List Char → List Char
  | [] => []
  | x :: xs =>
    if pat.isPrefixOf (x :: xs) then repl ++ (x :: xs).drop pat.length
    else x :: replaceOnceAux pat repl xs

/-- JS `s.replace(pat, repl)` replacing only the FIRST occurrence, as
`String.prototype.replace` does with a string pattern.  The source uses it as
`digest.replace('sha256:', '')`. -/
def jsReplaceOnce (s pat repl : String) : String :=
  String.mk (replaceOnceAux pat.data repl.data s.data)

theorem isPrefixOf_self_append {α : Type} [BEq α] [LawfulBEq α] (l t : List α) :
    l.isPrefixOf (l ++ t) = true := by
  induction l with
  | nil => simp [List.isPrefixOf]
  | cons a as ih => simp [List.isPrefixOf, ih]

theorem jsStartsWith_append (p t : String) : jsStartsWith (p ++ t) p = true := by
  have hd : (p ++ t).data = p.data ++ t.data := rfl
  simp [jsStartsWith, hd, isPrefixOf_self_append]

/-- The value-shape rule the source repeats at each lookup step: a bare string
is itself the content ref; an object contributes its `manifest_cid` field;
anything else contributes nothing. -/
def shapeRule : JVal → Option JVal
  | .str s => some (.str s)
  | .obj fs => jGet fs "manifest_cid"
  | _ => none

/-- The step-3 linear scan of `getManifestCid`: iterate the top-level entries
in order, keep keys starting with `<imageName>:`, extract the manifest cid by
the shape rule, and return the first one strictly equal to `reference`. -/
def scanMappings (imageName reference : String) : List (String × JVal) → Option JVal
  | [] => none
  | (k, v) :: rest =>
    if jsStartsWith k (imageName ++ ":") then
      match shapeRule v with
      | some (.str s) =>
        if s = reference then some (.str reference) else scanMappings imageName reference rest
      | _ => scanMappings imageName reference rest
    else scanMappings imageName reference rest

/-- Step 1 of `getManifestCid`: the direct `"<image>:<reference>"` key, under
the JS truthiness guard `if (mapping)`; a bare string is returned, an object
contributes its `manifest_cid`. -/
def directStep (m : JObj) (imageKey : String) : Option JVal :=
  match jGet m imageKey with
  | some mp => if mp.truthy then shapeRule mp else none
  | none => none

/-- Step 2 of `getManifestCid`: the nested `mappings[image][reference]` value
(the nested object is required truthy and of object type; the tag value has no
truthiness guard, so even an empty string is returned here). -/
def nestedStep (m : JObj) (imageName reference : String) : Option JVal :=
  match jGet m imageName with
  | some (.obj fs) =>
    match jGet fs reference with
    | some t => shapeRule t
    | none => none
  | _ => none

/-- `ImageMapping.getManifestCid`, translated from the source: the direct key,
else the nested lookup, else (for `sha256:` references) the linear scan. -/
def getManifestCid (m : JObj) (imageName reference : String) : Option JVal :=
  match directStep m (imageName ++ ":" ++ reference) with
  | some c => some c
  | none =>
    match nestedStep m imageName reference with
    | some c => some c
    | none =>
      if jsStartsWith reference "sha256:" then scanMappings imageName reference m else none

/-- `ImageMapping.getBlobCid`, translated from the source: image-specific
`mappings[image].blobs[digest]` first (returned whatever its type), then the
global `mappings.blobs[digest]` (returned only when it is a string). -/
def getBlobCid (m : JObj) (imageName digest : String) : Option JVal :=
  let fromImage : Option JVal :=
    match jGet m imageName with
    | some (.obj fs) =>
      match jGet fs "blobs" with
      | some bv =>
        if bv.truthy then
          match bv with
          | .obj bs => jGet bs digest
          | _ => none
        else none
      | none => none
    | _ => none
  match fromImage with
  | some v => some v
  | none =>
    match jGet m "blobs" with
    | some gv =>
      if gv.truthy then
        match gv with
        | .obj gbs =>
          match jGet gbs digest with
          | some (.str s) => some (.str s)
          | _ => none
        | _ => none
      else none
    | none => none

/-- The pure part of `ImageMapping.addMapping`: write `"<image>:<reference>"`
as an object with `manifest_cid` and `blobs` when a non-empty blob map is
supplied, else as a bare string. -/
def addMappingPure (m : JObj) (imageName reference manifestCid : String)
    (blobs : Option JObj) : JObj :=
  let imageKey := imageName ++ ":" ++ reference
  match blobs with
  | some bs =>
    if bs.length > 0 then
      jSet m imageKey (.obj [("manifest_cid", .str manifestCid), ("blobs", .obj bs)])
    else jSet m imageKey (.str manifestCid)
  | none => jSet m imageKey (.str manifestCid)

mutual

/-- `JSON.stringify` over the modelled JSON values (string escaping and the
2-space indentation of `JSON.stringify(m, null, 2)` are not modelled; only the
shape of the persisted write matters to the claims). -/
def stringify : JVal → String
  | .str s => "\"" ++ s ++ "\""
  | .num n => toString n
  | .bool b => if b then "true" else "false"
  | .null => "null"
  | .arr l => "[" ++ stringifyList l ++ "]"
  | .obj fs => "\x7b" ++ stringifyFields fs ++ "\x7d"

def stringifyList : List JVal → String
  | [] => ""
  | [x] => stringify x
  | x :: y :: rest => stringify x ++ "," ++ stringifyList (y :: rest)

def stringifyFields : List (String × JVal) → String
  | [] => ""
  | [(k, v)] => "\"" ++ k ++ "\":" ++ stringify v
  | (k, v) :: y :: rest => "\"" ++ k ++ "\":" ++ stringify v ++ "," ++ stringifyFields (y :: rest)

end

/-- A file-system operation, for stating how the mapping file is persisted. -/
inductive FsOp where
  | write (path content : String)
  | rename (src dst : String)

/-- `ImageMapping.saveMappings`: a single direct `writeFileSync` of the whole
serialized mapping to the mapping file path.  There is no temporary file and
no rename in the source. -/
def saveMappingsOps (mappingFile : String) (m : JObj) : List FsOp :=
  [FsOp.write mappingFile (stringify (JVal.obj m))]

/-- `ImageMapping.addMapping` including its persistence: returns the new
in-memory mapping and the file-system operations performed. -/
def addMappingRun (mappingFile : String) (m : JObj) (imageName reference manifestCid : String)
    (blobs : Option JObj) : JObj × List FsOp :=
  let m2 := addMappingPure m imageName reference manifestCid blobs
  (m2, saveMappingsOps mappingFile m2)

/-- `ImageMapping.updateMappings`: apply the caller's mutator, then persist. -/
def updateMappingsRun (mappingFile : String) (m : JObj) (updater : JObj → JObj) :
    JObj × List FsOp :=
  let m2 := updater m
  (m2, saveMappingsOps mappingFile m2)

/-!
## Manifest parsing (`src/utils.ts`) and credentials (`src/auth.ts`)
-/

/-- Strict JS equality `x === 2` against the number two. -/
def isNum2 : Option JVal → Bool
  | some (.num n) => n == 2
  | _ => false

/-- Truthiness of a possibly absent field. -/
def optTruthy : Option JVal → Bool
  | some v => v.truthy
  | none => false

/-- JS `x || []`. -/
def jsOrArr : Option JVal → JVal
  | some v => if v.truthy then v else .arr []
  | none => .arr []

/-- `parseManifestLayers` from `src/utils.ts`, clause by clause:
`schemaVersion === 2` returns `manifest.layers || []`; otherwise a truthy
`layers` field, else a truthy `fsLayers` field, else the empty array. -/
def parseManifestLayers (m : JVal) : JVal :=
  if isNum2 (jsField m "schemaVersion") then jsOrArr (jsField m "layers")
  else if optTruthy (jsField m "layers") then (jsField m "layers").getD (.arr [])
  else if optTruthy (jsField m "fsLayers") then (jsField m "fsLayers").getD (.arr [])
  else .arr []

/-- Credentials extracted from the `Authorization` header. -/
structure AuthCredentials where
  privateKey : String
  username : Option String
deriving DecidableEq

/-- An ASCII whitespace character (the inputs this program trims are ASCII;
`String.prototype.trim` also strips rarer Unicode spaces). -/
def isWsChar (c : Char) : Bool := c = ' ' || c = '\t' || c = '\n' || c = '\r'

/-- JS `key.trim()`: strip leading and trailing whitespace. -/
def jsTrim (s : String) : String :=
  String.mk (((s.data.dropWhile isWsChar).reverse.dropWhile isWsChar).reverse)

/-- `normalizePrivateKey`: trim whitespace, prepend `0x` when absent. -/
def normalizePrivateKey (key : String) : String :=
  let k := jsTrim key
  if jsStartsWith k "0x" then k else "0x" ++ k

/-- Split a character list at every occurrence of `c` (JS `s.split(c)`). -/
def splitChar (c : Char) : List Char → List (List Char)
  | [] => [[]]
  | x :: xs =>
    match splitChar c xs with
    | [] => [[]]
    | y :: ys => if x = c then [] :: y :: ys else (x :: y) :: ys

/-- JS `decoded.split(':')`. -/
def jsSplitColon (s : String) : List String := (splitChar ':' s.data).map String.mk

/-- `extractCredentials` from `src/auth.ts`.  The base-64 decoding performed by
`Buffer.from(encoded, 'base64').toString('utf-8')` is abstracted as
`decodeB64` (node's decoder never throws, so the surrounding catch is dead).
The JS destructuring `const [username, password] = decoded.split(':')` takes
the first two split segments. -/
def extractCredentials (decodeB64 : String → String) (authHeader : Option String) :
    Option AuthCredentials :=
  match authHeader with
  | none => none
  | some h =>
    if jsStartsWith h "Basic " then
      let encoded := jsSubstring h 6
      let decoded := decodeB64 encoded
      let parts := jsSplitColon decoded
      match parts[1]? with
      | none => some ⟨normalizePrivateKey decoded, none⟩
      | some password =>
        if password = "" then some ⟨normalizePrivateKey decoded, none⟩
        else some ⟨normalizePrivateKey password, parts[0]?⟩
    else if jsStartsWith h "Bearer " then
      some ⟨normalizePrivateKey (jsSubstring h 7), none⟩
    else none

/-!
## Blob storage and upload sessions (`src/storage.ts`) and server state

File contents are byte lists; the blob and manifest directories are modelled
as maps from file name (the digest hex, obtained by stripping the `sha256:`
prefix with JS `replace`) to contents.  `randomUUID()` is modelled by letting
the caller supply the fresh upload id.
-/

/-- An in-progress chunked upload (`UploadSession` in `src/storage.ts`). -/
structure UploadSession where
  uploadId : String
  name : String
  chunks : List (List Nat)
  size : Nat

/-- The registry's mutable state: the in-memory mapping index, the upload
session table, and the local blob/manifest stores. -/
structure RegState where
  mappings : JObj
  sessions : List (String × UploadSession)
  blobFiles : List (String × List Nat)
  manifestFiles : List (String × List Nat)

/-- `computeDigest` from `src/utils.ts`: canonical `sha256:<hex>` form.  The
SHA-256 hex function itself (node `crypto`) is a pure opaque parameter. -/
def computeDigest (sha256hex : List Nat → String) (data : List Nat) : String :=
  "sha256:" ++ sha256hex data

/-- `BlobStorage.startUpload`: insert a fresh empty session. -/
def startUpload (st : RegState) (name uploadId : String) : String × RegState :=
  (uploadId, { st with sessions := alSet st.sessions uploadId ⟨uploadId, name, [], 0⟩ })

/-- `BlobStorage.appendChunk`: `none` models the thrown
`Upload session not found` error. -/
def appendChunkSt (st : RegState) (uploadId : String) (chunk : List Nat) : Option RegState :=
  match alGet st.sessions uploadId with
  | none => none
  | some s =>
    let s2 : UploadSession :=
      { s with
          chunks := s.chunks ++ [chunk],
          size := s.size + chunk.length }
    some { st with sessions := alSet st.sessions uploadId s2 }

/-- `BlobStorage.completeUpload`: concatenate the chunks, compute the digest,
compare against a caller-supplied digest (JS truthiness: an empty expected
digest is not compared), write the blob file, delete the session.  `.error`
models the thrown exceptions. -/
def completeUploadSt (sha256hex : List Nat → String) (st : RegState) (uploadId : String)
    (digestQ : Option String) : Except String (String × RegState) :=
  match alGet st.sessions uploadId with
  | none => .error ("Upload session " ++ uploadId ++ " not found")
  | some s =>
    let blobData := s.chunks.flatten
    let actualDigest := computeDigest sha256hex blobData
    let mismatch : Bool := match digestQ with
      | some dg => decide (dg ≠ "") && decide (dg ≠ actualDigest)
      | none => false
    if mismatch then
      .error ("Digest mismatch: expected " ++ digestQ.getD "" ++ ", got " ++ actualDigest)
    else
      let st2 : RegState :=
        { st with
            blobFiles := alSet st.blobFiles (jsReplaceOnce actualDigest "sha256:" "") blobData,
            sessions := alDel st.sessions uploadId }
      .ok (actualDigest, st2)

/-- Response body. -/
inductive Body where
  | empty
  | json (j : JVal)
  | raw (b : List Nat)

/-- An HTTP response as observed on the wire. -/
structure HttpResponse where
  status : Nat
  headers : List (String × String)
  body : Body

/-- The JSON error bodies the handlers send. -/
def jsonError (msg : String) : Body := .json (.obj [("error", .str msg)])

/-- Build a response. -/
def mkResp (status : Nat) (headers : List (String × String)) (body : Body) : HttpResponse :=
  { status := status, headers := headers, body := body }

/-- Express 4's default error handler for synchronously thrown errors:
status 500 (the HTML error page body is not modelled). -/
def expressDefaultErrorResponse : HttpResponse := { status := 500, headers := [], body := .empty }

/-- Outcome of the async blob-upload PUT handler: a response, or an uncaught
exception (unhandled promise rejection — no response reaches the client). -/
inductive HandlerOut where
  | respond (resp : HttpResponse) (st : RegState)
  | crash (msg : String) (st : RegState)

/-- Content-type resolution for manifests: declared `mediaType` when truthy,
else Docker v2 when `schemaVersion === 2`, else OCI v1.  (A truthy non-string
`mediaType` is not modelled; manifests carry string media types.) -/
def manifestContentType (md : JVal) : String :=
  match jsField md "mediaType" with
  | some (.str s) =>
    if s ≠ "" then s
    else if isNum2 (jsField md "schemaVersion") then
      "application/vnd.docker.distribution.manifest.v2+json"
    else "application/vnd.oci.image.manifest.v1+json"
  | _ =>
    if isNum2 (jsField md "schemaVersion") then
      "application/vnd.docker.distribution.manifest.v2+json"
    else "application/vnd.oci.image.manifest.v1+json"

/-- GET `/v2/*/manifests/:reference`.  Local (`sha256:`) content refs are read
from the manifest store; remote content ids are fetched from the gateway, and
on ANY remote failure the handler returns 404 without consulting local
storage (the source's catch block has no local fallback for manifests). -/
def manifestGet (sha256hex : List Nat → String) (parseJson : List Nat → Option JVal)
    (remoteFetch : String → Option (List Nat)) (st : RegState) (name reference : String) :
    Option HttpResponse :=
  match getManifestCid st.mappings name reference with
  | none => some (mkResp 404 [] (jsonError ("Manifest not found for " ++ name ++ ":" ++ reference)))
  | some cidv =>
    -- JS `if (!cid)`: a present falsy ref (empty string, 0, null, false) also 404s
    if cidv.truthy = false then
      some (mkResp 404 [] (jsonError ("Manifest not found for " ++ name ++ ":" ++ reference)))
    else
    match cidv with
    | .str cid =>
    if jsStartsWith cid "sha256:" then
      match alGet st.manifestFiles (jsReplaceOnce cid "sha256:" "") with
      | none => some (mkResp 404 [] (jsonError ("Manifest not found locally (digest: " ++ cid ++ ")")))
      | some manifestBytes =>
        match parseJson manifestBytes with
        | none => some (mkResp 500 [] (jsonError "Failed to parse manifest"))
        | some md => some (mkResp 200
            [("Content-Type", manifestContentType md),
             ("Docker-Content-Digest", cid),
             ("Content-Length", toString manifestBytes.length)]
            (.raw manifestBytes))
    else
      match remoteFetch cid with
      | some manifestBytes =>
        match parseJson manifestBytes with
        | none => some (mkResp 500 [] (jsonError "Failed to parse manifest"))
        | some md => some (mkResp 200
            [("Content-Type", manifestContentType md),
             ("Docker-Content-Digest", computeDigest sha256hex manifestBytes),
             ("Content-Length", toString manifestBytes.length)]
            (.raw manifestBytes))
      | none => some (mkResp 404 [] (jsonError "Failed to fetch manifest from IPFS"))
    | _ => none

/-- GET `/v2/*/blobs/:digest`.  Local content refs stream the blob file named
by the request digest; remote content ids are fetched from the gateway, and on
any remote failure the handler falls back to the local blob file if it exists,
else 404. -/
def blobGet (remoteFetch : String → Option (List Nat)) (st : RegState)
    (name digest : String) : Option HttpResponse :=
  match getBlobCid st.mappings name digest with
  | none => some (mkResp 404 [] (jsonError ("Blob not found for digest " ++ digest)))
  | some cidv =>
    -- JS `if (!cid)`: a present falsy ref (empty string, 0, null, false) also 404s
    if cidv.truthy = false then
      some (mkResp 404 [] (jsonError ("Blob not found for digest " ++ digest)))
    else
    match cidv with
    | .str cid =>
    if jsStartsWith cid "sha256:" then
      match alGet st.blobFiles (jsReplaceOnce digest "sha256:" "") with
      | none => some (mkResp 404 [] (jsonError ("Blob not found locally (digest: " ++ digest ++ ")")))
      | some bytes => some (mkResp 200
          [("Content-Type", "application/octet-stream"),
           ("Docker-Content-Digest", digest),
           ("Content-Length", toString bytes.length)]
          (.raw bytes))
    else
      match remoteFetch cid with
      | some bytes => some (mkResp 200
          [("Content-Type", "application/octet-stream"),
           ("Docker-Content-Digest", digest)]
          (.raw bytes))
      | none =>
        match alGet st.blobFiles (jsReplaceOnce digest "sha256:" "") with
        | some bytes => some (mkResp 200
            [("Content-Type", "application/octet-stream"),
             ("Docker-Content-Digest", digest),
             ("Content-Length", toString bytes.length)]
            (.raw bytes))
        | none => some (mkResp 404 [] (jsonError "Failed to fetch blob from IPFS"))
    | _ => none

/-- POST `/v2/*/blobs/uploads`: start a session, 202 with upload location. -/
def blobUploadPost (st : RegState) (name uploadId : String) : HttpResponse × RegState :=
  let r := startUpload st name uploadId
  (mkResp 202
    [("Location", "/v2/" ++ name ++ "/blobs/uploads/" ++ r.1),
     ("Docker-Upload-UUID", r.1),
     ("Range", "0-0")] .empty, r.2)

/-- PATCH `/v2/*/blobs/uploads/:uploadId`.  Empty body: 400.  Unknown session:
`appendChunk` throws synchronously, so Express's default error handler answers
500 and the handler's own 404 branch is unreachable.  Otherwise 202 with the
updated `Range`. -/
def blobUploadPatch (st : RegState) (name uploadId : String) (body : List Nat) :
    HttpResponse × RegState :=
  if body = [] then
    (mkResp 400 [] (jsonError "No data provided"), st)
  else
    match appendChunkSt st uploadId body with
    | none => (expressDefaultErrorResponse, st)
    | some st2 =>
      match alGet st2.sessions uploadId with
      | none => (mkResp 404 [] (jsonError "Upload session not found"), st2)
      | some s =>
        (mkResp 202
          [("Location", "/v2/" ++ name ++ "/blobs/uploads/" ++ uploadId),
           ("Docker-Upload-UUID", uploadId),
           ("Range", "0-" ++ toString (s.size - 1))] .empty, st2)

/-- The synchronous mapping mutation the blob PUT passes to
`updateMappings`: ensure `mappings[name]` is an object holding a `blobs`
table, then record `blobs[actualDigest] = actualDigest`.  `none` models the
strict-mode TypeError of assigning a property on a truthy non-object `blobs`
value (mapping files written by this program never contain one). -/
def blobPutMutate (m : JObj) (name d : String) : Option JObj :=
  let m1 : JObj :=
    match jGet m name with
    | none => jSet m name (.obj [("blobs", .obj [])])
    | some v =>
      match v with
      | .str _ => jSet m name (.obj [("blobs", .obj [])])
      | _ => if v.truthy then m else jSet m name (.obj [("blobs", .obj [])])
  match jGet m1 name with
  | some (.obj fs) =>
    match jGet fs "blobs" with
    | none => some m1
    | some bv =>
      if bv.truthy then
        match bv with
        | .obj bs => some (jSet m1 name (.obj (jSet fs "blobs" (.obj (jSet bs d (.str d))))))
        | _ => none
      else some (jSet m1 name (.obj (jSet fs "blobs" (.obj [(d, .str d)]))))
  | _ => some m1

/-- PUT `/v2/*/blobs/uploads/:uploadId?digest=d`.  Missing/empty digest: 400.
Non-empty body is appended first.  `completeUpload` finalizes (its thrown
errors crash the async handler: no response).  On success the synchronous CAR
CID is computed, the mapping records `blobs[d] = d` (local digest), and 201 is
sent.  The background Filecoin pin and its later mapping rewrite happen after
the response and are not modelled. -/
def blobUploadPut (sha256hex : List Nat → String) (computeCid : List Nat → Except String String)
    (st : RegState) (name uploadId : String) (digestQ : Option String) (body : List Nat) :
    HandlerOut :=
  let emptyQ : Bool := match digestQ with
    | none => true
    | some dq => dq = ""
  if emptyQ then
    .respond (mkResp 400 [] (jsonError "digest query parameter required")) st
  else
    let app := if body ≠ [] then appendChunkSt st uploadId body else some st
    match app with
    | none => .crash ("Upload session " ++ uploadId ++ " not found") st
    | some st1 =>
      match completeUploadSt sha256hex st1 uploadId digestQ with
      | .error msg => .crash msg st1
      | .ok r =>
        match alGet r.2.blobFiles (jsReplaceOnce r.1 "sha256:" "") with
        | none => .respond (mkResp 500 [] (jsonError "Failed to locate saved blob")) r.2
        | some blobData =>
          match computeCid blobData with
          | .error msg => .crash msg r.2
          | .ok _ =>
            match blobPutMutate r.2.mappings name r.1 with
            | none => .crash "TypeError" r.2
            | some m2 =>
              .respond (mkResp 201
                [("Location", "/v2/" ++ name ++ "/blobs/" ++ r.1),
                 ("Docker-Content-Digest", r.1),
                 ("Content-Length", "0")] .empty) { r.2 with mappings := m2 }

/-- First-some choice between lookup steps. -/
def firstSome (a b : Option JVal) : Option JVal :=
  match a with
  | some x => some x
  | none => b

/-- Whether a mapping value's manifest cid matches `ref` exactly. -/
def scanHit (ref : String) (v : JVal) : Bool :=
  match shapeRule v with
  | some (.str s) => s = ref
  | _ => false

/-- Step 2 of the spec's lookup order: nested `mappings[image][reference]`
under the same shape rule. -/
def nestedSpec (m : JObj) (image ref : String) : Option JVal :=
  match jGet m image with
  | some (.obj fs) => (jGet fs ref).bind shapeRule
  | _ => none

/-- Step 3 of the spec's lookup order: when `reference` begins with
`sha256:`, linear-scan all `"<image>:*"` keys and return the value whose
manifest cid matches `reference` exactly. -/
def scanSpec (m : JObj) (image ref : String) : Option JVal :=
  if jsStartsWith ref "sha256:" then
    (m.find? (fun kv => jsStartsWith kv.1 (image ++ ":") && scanHit ref kv.2)).map
      (fun _ => JVal.str ref)
  else none

/-- The lookup order exactly as claim C6 states it: the direct
`"<image>:<reference>"` key (bare string value, or the object's
`manifest_cid`), else the nested lookup, else the digest scan, else null. -/
def getManifestCidSpec (m : JObj) (image ref : String) : Option JVal :=
  firstSome ((jGet m (image ++ ":" ++ ref)).bind shapeRule)
    (firstSome (nestedSpec m image ref) (scanSpec m image ref))

/-- The lookup order amended: the direct key applies only when its value is
truthy (in particular, a direct empty-string value is skipped). -/
def getManifestCidAmended (m : JObj) (image ref : String) : Option JVal :=
  let direct : Option JVal :=
    match jGet m (image ++ ":" ++ ref) with
    | some v => if v.truthy then shapeRule v else none
    | none => none
  firstSome direct (firstSome (nestedSpec m image ref) (scanSpec m image ref))

/-- The layer extraction exactly as claim C7 states it: the `layers` entries
whenever the field is present, else the `fsLayers` entries when present, else
empty — independent of `schemaVersion`. -/
def layersOfClaim (m : JVal) : JVal :=
  match jsField m "layers" with
  | some v => v
  | none =>
    match jsField m "fsLayers" with
    | some v => v
    | none => .arr []

/-- The layer extraction amended: a truthy `layers` field wins; otherwise,
when `schemaVersion` is strictly the number 2, the result is empty (the
`fsLayers` fallback is suppressed); otherwise a truthy `fsLayers` field, else
empty. -/
def layersOfAmended (m : JVal) : JVal :=
  if optTruthy (jsField m "layers") then (jsField m "layers").getD (.arr [])
  else if isNum2 (jsField m "schemaVersion") then .arr []
  else if optTruthy (jsField m "fsLayers") then (jsField m "fsLayers").getD (.arr [])
  else .arr []

/-- The blob-PUT mapping mutation as amended claim C10 characterizes it, by
cases on the previous value of the image's top-level key. -/
def blobPutMutateSpec (m : JObj) (name d : String) : Option JObj :=
  match jGet m name with
  | none => some (jSet m name (.obj [("blobs", .obj [(d, .str d)])]))
  | some v =>
    match v with
    | .str _ => some (jSet m name (.obj [("blobs", .obj [(d, .str d)])]))
    | .obj fs =>
      match jGet fs "blobs" with
      | none => some m
      | some bv =>
        if bv.truthy then
          match bv with
          | .obj bs => some (jSet m name (.obj (jSet fs "blobs" (.obj (jSet bs d (.str d))))))
          | _ => none
        else some (jSet m name (.obj (jSet fs "blobs" (.obj [(d, .str d)]))))
    | _ =>
      if v.truthy then some m
      else some (jSet m name (.obj [("blobs", .obj [(d, .str d)])]))

/-!
## Helper lemmas
-/

theorem alSet_alSet {α : Type} (l : List (String × α)) (k : String) (v1 v2 : α) :
    alSet (alSet l k v1) k v2 = alSet l k v2 := by
  induction l with
  | nil => simp [alSet]
  | cons hd tl ih =>
    obtain ⟨k2, w⟩ := hd
    by_cases h : k2 = k <;> simp [alSet, h, ih]

theorem mk_data (s : String) : String.mk s.data = s := by
  cases s
  rfl

theorem scanMappings_eq_find (image ref : String) (l : List (String × JVal)) :
    scanMappings image ref l =
      (l.find? (fun kv => jsStartsWith kv.1 (image ++ ":") && scanHit ref kv.2)).map
        (fun _ => JVal.str ref) := by
  induction l with
  | nil => rfl
  | cons hd tl ih =>
    obtain ⟨k, v⟩ := hd
    by_cases hk : jsStartsWith k (image ++ ":")
    · cases hsv : shapeRule v with
      | none =>
        simp [scanMappings, List.find?, hk, scanHit, hsv, ih]
      | some w =>
        cases w with
        | str s =>
          by_cases hs : s = ref
          · simp [scanMappings, List.find?, hk, scanHit, hsv, hs]
          · simp [scanMappings, List.find?, hk, scanHit, hsv, hs, ih]
        | num n => simp [scanMappings, List.find?, hk, scanHit, hsv, ih]
        | bool b => simp [scanMappings, List.find?, hk, scanHit, hsv, ih]
        | null => simp [scanMappings, List.find?, hk, scanHit, hsv, ih]
        | arr es => simp [scanMappings, List.find?, hk, scanHit, hsv, ih]
        | obj fs => simp [scanMappings, List.find?, hk, scanHit, hsv, ih]
    · simp [scanMappings, List.find?, hk, ih]

theorem nestedStep_eq_spec (m : JObj) (image ref : String) :
    nestedStep m image ref = nestedSpec m image ref := by
  unfold nestedStep nestedSpec
  cases hji : jGet m image with
  | none => rfl
  | some v =>
    cases v with
    | obj fs =>
      show (match jGet fs ref with
        | some t => shapeRule t
        | none => none) = (jGet fs ref).bind shapeRule
      cases hr : jGet fs ref <;> rfl
    | str s => rfl
    | num n => rfl
    | bool b => rfl
    | null => rfl
    | arr es => rfl

/-!
## Claim theorems
-/

/-- The mapping state of the C6 counterexample: a falsy (empty-string) direct
entry together with a nested entry for the same image and reference. -/
def mC6 : JObj := [("img:latest", .str ""), ("img", .obj [("latest", .str "X")])]

/-- C6 counterexample: the claim says resolution returns the bare string value
of the direct `"<image>:<reference>"` key first; on a mapping whose direct
value is the empty string the code skips the direct key (JS truthiness) and
returns the nested value instead, so the claimed order is wrong. -/
theorem C6_cex :
    getManifestCid mC6 "img" "latest" = some (.str "X")
    ∧ getManifestCidSpec mC6 "img" "latest" = some (.str "")
    ∧ JVal.str "X" ≠ JVal.str "" := by
  refine ⟨rfl, rfl, ?_⟩
  simp

/-- C6 (amended): `lookupManifest` resolves in the claimed order — direct
`"<image>:<reference>"` key, then nested `mappings[image][reference]`, then
(for `sha256:` references) the linear scan — except that the direct key
applies only when its value is JS-truthy: a falsy direct value (such as the
empty string) is skipped and resolution falls through. -/
theorem C6_lookup_order_amended (m : JObj) (image ref : String) :
    getManifestCid m image ref = getManifestCidAmended m image ref := by
  unfold getManifestCid getManifestCidAmended
  show (match directStep m (image ++ ":" ++ ref) with
    | some c => some c
    | none =>
      match nestedStep m image ref with
      | some c => some c
      | none => if jsStartsWith ref "sha256:" then scanMappings image ref m else none) =
    firstSome (directStep m (image ++ ":" ++ ref))
      (firstSome (nestedSpec m image ref) (scanSpec m image ref))
  rw [← nestedStep_eq_spec]
  cases hd : directStep m (image ++ ":" ++ ref) with
  | some c => simp [firstSome]
  | none =>
    cases hn : nestedStep m image ref with
    | some c => simp [firstSome]
    | none =>
      unfold scanSpec
      by_cases hs : jsStartsWith ref "sha256:" = true <;>
        simp [firstSome, hs, scanMappings_eq_find]

/-- The manifest of the C7 counterexample: `schemaVersion` 2 with a legacy
`fsLayers` list and no `layers` field. -/
def mC7 : JVal := .obj [("schemaVersion", .num 2), ("fsLayers", .arr [.obj [("digest", .str "sha256:a")]])]

/-- C7 counterexample: the claim says the `layers`-then-`fsLayers` fallback is
independent of `schemaVersion`; on a manifest with `schemaVersion` 2 and only
`fsLayers` the code returns the empty list while the claimed extraction
returns the `fsLayers` entries. -/
theorem C7_cex :
    parseManifestLayers mC7 = .arr []
    ∧ layersOfClaim mC7 = .arr [.obj [("digest", .str "sha256:a")]]
    ∧ JVal.arr [] ≠ JVal.arr [.obj [("digest", .str "sha256:a")]] := by
  refine ⟨rfl, rfl, ?_⟩
  simp

/-- C7 (amended): a truthy `layers` field is always returned; when
`schemaVersion` is strictly the number 2 and `layers` is absent or falsy the
result is empty (the `fsLayers` fallback is suppressed); otherwise a truthy
`fsLayers` field is returned, else the empty list. -/
theorem C7_layers_amended (m : JVal) : parseManifestLayers m = layersOfAmended m := by
  unfold parseManifestLayers layersOfAmended
  by_cases h2 : isNum2 (jsField m "schemaVersion") = true
  · simp only [h2, if_true]
    cases hl : jsField m "layers" with
    | none => simp [jsOrArr, optTruthy]
    | some v => cases hv : v.truthy <;> simp [jsOrArr, optTruthy, hv]
  · simp only [Bool.not_eq_true] at h2
    simp [h2]

/-- C9 counterexample: a concrete `addMapping` persists by one direct write of
the whole serialized mapping to the mapping file; the write sequence is not of
the temp-file-plus-rename shape the claim requires. -/
theorem C9_cex :
    (addMappingRun "image_mapping.json" [] "img" "latest" "sha256:aa" none).2 =
      [FsOp.write "image_mapping.json" (stringify (.obj [("img:latest", .str "sha256:aa")]))]
    ∧ ¬ ∃ tmp c,
        (addMappingRun "image_mapping.json" [] "img" "latest" "sha256:aa" none).2 =
          [FsOp.write tmp c, FsOp.rename tmp "image_mapping.json"] := by
  refine ⟨rfl, ?_⟩
  rintro ⟨tmp, c, h⟩
  have hl := congrArg List.length h
  simp [addMappingRun, saveMappingsOps] at hl

/-- C9 (amended): every mutation of the mapping index — `addMapping` and the
mutator-callback update — persists the whole serialized JSON state through a
single direct whole-file write to the mapping file path; no temporary file and
no rename are involved, so whole-file-atomicity is not provided by the write
mechanism. -/
theorem C9_single_direct_write (file : String) (m : JObj) (image ref cid : String)
    (blobs : Option JObj) (f : JObj → JObj) :
    (addMappingRun file m image ref cid blobs).2 =
      [FsOp.write file (stringify (.obj (addMappingPure m image ref cid blobs)))]
    ∧ (updateMappingsRun file m f).2 = [FsOp.write file (stringify (.obj (f m)))] :=
  ⟨rfl, rfl⟩

/-- The mapping state of the C10 counterexample: the image's top-level value
is an object that has no `blobs` table. -/
def mC10 : JObj := [("keep", .str "k"), ("img", .obj [("latest", .str "x")])]

/-- C10 counterexample: the claim says the blob-PUT mutation always sets
`N.blobs[d] = d`; when the image's previous value is an object without a
`blobs` key the mutation leaves the mapping entirely unchanged and no blob
entry exists afterwards. -/
theorem C10_cex :
    blobPutMutate mC10 "img" "sha256:d" = some mC10
    ∧ getBlobCid mC10 "img" "sha256:d" = none := ⟨rfl, rfl⟩

/-- The session-table state of the C2 evidence: one session holding the bytes
`he` and `l` (total `hel`). -/
def stC2 : RegState := ⟨[], [("u1", ⟨"u1", "img", [[104, 101], [108]], 3⟩)], [], []⟩

/-- The digest function of the C2 evidence, fixing the hex of the uploaded
bytes. -/
def hexC2 : List Nat → String := fun b => if b = [104, 101, 108] then "good" else "other"

/-- C2 code-bug evidence: on a PUT whose declared digest differs from the
computed one, `completeUpload` throws and the async handler never catches, so
the client gets no 400 response (unhandled rejection); the session does stay
in the table and no mapping entry is created for the declared digest. -/
theorem C2_mismatch_uncaught :
    blobUploadPut hexC2 (fun _ => .ok "bafy") stC2 "img" "u1" (some "sha256:bad") [] =
      .crash "Digest mismatch: expected sha256:bad, got sha256:good" stC2
    ∧ (alGet stC2.sessions "u1").isSome = true
    ∧ getBlobCid stC2.mappings "img" "sha256:bad" = none := ⟨rfl, rfl, rfl⟩

/-- The state of the C5 evidence: one session of size 1 plus an unrelated
mapping entry. -/
def stC5 : RegState := ⟨[("keep", .str "v")], [("u1", ⟨"u1", "img", [[1]], 1⟩)], [], []⟩

/-- C5 code-bug evidence: the empty-body PATCH yields 400 with
`No data provided` and an unchanged state; a non-empty PATCH with an unknown
upload id makes `appendChunk` throw, which Express's default error handler
answers with 500 — not the 404 the claim (and the handler's own dead branch)
specify; a known session is appended and answered 202 with the updated
`Range`. -/
theorem C5_patch_behavior :
    blobUploadPatch stC5 "img" "u1" [] = (mkResp 400 [] (jsonError "No data provided"), stC5)
    ∧ blobUploadPatch stC5 "img" "nope" [2] = (expressDefaultErrorResponse, stC5)
    ∧ expressDefaultErrorResponse.status = 500
    ∧ blobUploadPatch stC5 "img" "u1" [2, 3] =
        (mkResp 202 [("Location", "/v2/img/blobs/uploads/u1"), ("Docker-Upload-UUID", "u1"),
          ("Range", "0-2")] .empty,
         ⟨[("keep", .str "v")], [("u1", ⟨"u1", "img", [[1], [2, 3]], 3⟩)], [], []⟩) :=
  ⟨rfl, rfl, rfl, rfl⟩

/-- The state of the C4 counterexample: the manifest reference maps to a
remote content id while a local copy of the manifest bytes exists. -/
def stC4 : RegState := ⟨[("img:sha256:ab", .str "bafyQ")], [], [], [("ab", [7, 7])]⟩

/-- C4 counterexample: with an unreachable remote gateway and a local manifest
copy present, the manifest GET still answers 404 — the claimed local fallback
does not exist on the manifest path. -/
theorem C4_cex :
    manifestGet (fun _ => "aa") (fun _ => some (.obj [])) (fun _ => none) stC4 "img" "sha256:ab" =
      some (mkResp 404 [] (jsonError "Failed to fetch manifest from IPFS"))
    ∧ alGet stC4.manifestFiles (jsReplaceOnce "sha256:ab" "sha256:" "") = some [7, 7] :=
  ⟨rfl, rfl⟩

/-- Base-64 decoder of the C8 counterexample: the header decodes to
`user:a:b`, a password containing a colon. -/
def d64C8 : String → String := fun _ => "user:a:b"

/-- C8 counterexample: the claim says the Basic-auth private key is everything
after the username separator (`a:b` here, normalized to `0xa:b`); the code's
destructured `split(':')` keeps only the second segment, yielding `0xa`. -/
theorem C8_cex :
    (extractCredentials d64C8 (some "Basic dXNlcjphOmI=")).map (fun cr => cr.privateKey) =
      some "0xa"
    ∧ normalizePrivateKey "a:b" = "0xa:b"
    ∧ ("0xa" : String) ≠ "0xa:b" := by
  refine ⟨rfl, rfl, ?_⟩
  decide

theorem blobPutMutate_shape (m : JObj) (name d : String) :
    blobPutMutate m name d = some m ∨
    (∃ v, blobPutMutate m name d = some (jSet m name v)) ∨
    blobPutMutate m name d = none := by
  unfold blobPutMutate
  cases hv : jGet m name with
  | none =>
    exact Or.inr (Or.inl ⟨.obj [("blobs", .obj [(d, .str d)])],
      by simp [hv, alGet_alSet_self, alSet_alSet, jGet, jSet, JVal.truthy, alGet, alSet]⟩)
  | some v =>
    cases v with
    | str s =>
      exact Or.inr (Or.inl ⟨.obj [("blobs", .obj [(d, .str d)])],
        by simp [hv, alGet_alSet_self, alSet_alSet, jGet, jSet, JVal.truthy, alGet, alSet]⟩)
    | num n =>
      by_cases hn : n = 0
      · exact Or.inr (Or.inl ⟨.obj [("blobs", .obj [(d, .str d)])],
          by simp [hv, hn, alGet_alSet_self, alSet_alSet, jGet, jSet, JVal.truthy, alGet, alSet]⟩)
      · exact Or.inl (by simp [hv, hn, JVal.truthy])
    | bool b =>
      cases b
      · exact Or.inr (Or.inl ⟨.obj [("blobs", .obj [(d, .str d)])],
          by simp [hv, alGet_alSet_self, alSet_alSet, jGet, jSet, JVal.truthy, alGet, alSet]⟩)
      · exact Or.inl (by simp [hv, JVal.truthy])
    | null =>
      exact Or.inr (Or.inl ⟨.obj [("blobs", .obj [(d, .str d)])],
        by simp [hv, alGet_alSet_self, alSet_alSet, jGet, jSet, JVal.truthy, alGet, alSet]⟩)
    | arr es => exact Or.inl (by simp [hv, JVal.truthy])
    | obj fs =>
      cases hb : jGet fs "blobs" with
      | none => exact Or.inl (by simp [hv, hb, JVal.truthy])
      | some bv =>
        cases bv with
        | obj bs =>
          exact Or.inr (Or.inl ⟨.obj (jSet fs "blobs" (.obj (jSet bs d (.str d)))),
            by simp [hv, hb, JVal.truthy]⟩)
        | str s =>
          by_cases hs : s = ""
          · exact Or.inr (Or.inl ⟨.obj (jSet fs "blobs" (.obj [(d, .str d)])),
              by simp [hv, hb, hs, JVal.truthy]⟩)
          · exact Or.inr (Or.inr (by simp [hv, hb, hs, JVal.truthy]))
        | num n =>
          by_cases hn : n = 0
          · exact Or.inr (Or.inl ⟨.obj (jSet fs "blobs" (.obj [(d, .str d)])),
              by simp [hv, hb, hn, JVal.truthy]⟩)
          · exact Or.inr (Or.inr (by simp [hv, hb, hn, JVal.truthy]))
        | bool b =>
          cases b
          · exact Or.inr (Or.inl ⟨.obj (jSet fs "blobs" (.obj [(d, .str d)])),
              by simp [hv, hb, JVal.truthy]⟩)
          · exact Or.inr (Or.inr (by simp [hv, hb, JVal.truthy]))
        | null =>
          exact Or.inr (Or.inl ⟨.obj (jSet fs "blobs" (.obj [(d, .str d)])),
            by simp [hv, hb, JVal.truthy]⟩)
        | arr es => exact Or.inr (Or.inr (by simp [hv, hb, JVal.truthy]))

/-- C10 (amended): the synchronous blob-PUT mapping mutation coincides with
the by-cases characterization `blobPutMutateSpec` — it sets `N.blobs[d] = d`
when `N` was absent, falsy, a bare string, or an object that already has a
`blobs` key, replacing absent/falsy/string values with an object holding only
a blobs table, but leaves the mapping entirely unchanged when `N` is a
non-array object without a `blobs` key, an array, or another truthy
non-string primitive — and in every non-crashing case all top-level keys
other than `N` keep their previous values. -/
theorem C10_blob_mutation_amended (m : JObj) (name d : String) :
    blobPutMutate m name d = blobPutMutateSpec m name d
    ∧ ∀ m2 k, blobPutMutate m name d = some m2 → k ≠ name → jGet m2 k = jGet m k := by
  constructor
  · unfold blobPutMutate blobPutMutateSpec
    cases hv : jGet m name with
    | none => simp [hv, alGet_alSet_self, alSet_alSet, jGet, jSet, JVal.truthy, alGet, alSet]
    | some v =>
      cases v with
      | str s => simp [hv, alGet_alSet_self, alSet_alSet, jGet, jSet, JVal.truthy, alGet, alSet]
      | num n =>
        by_cases hn : n = 0
        · simp [hv, hn, alGet_alSet_self, alSet_alSet, jGet, jSet, JVal.truthy, alGet, alSet]
        · simp [hv, hn, JVal.truthy]
      | bool b =>
        cases b
        · simp [hv, alGet_alSet_self, alSet_alSet, jGet, jSet, JVal.truthy, alGet, alSet]
        · simp [hv, JVal.truthy]
      | null => simp [hv, alGet_alSet_self, alSet_alSet, jGet, jSet, JVal.truthy, alGet, alSet]
      | arr es => simp [hv, JVal.truthy]
      | obj fs =>
        cases hb : jGet fs "blobs" with
        | none => simp [hv, hb, JVal.truthy]
        | some bv =>
          cases bv with
          | obj bs => simp [hv, hb, JVal.truthy]
          | str s => by_cases hs : s = "" <;> simp [hv, hb, hs, JVal.truthy]
          | num n => by_cases hn : n = 0 <;> simp [hv, hb, hn, JVal.truthy]
          | bool b => cases b <;> simp [hv, hb, JVal.truthy]
          | null => simp [hv, hb, JVal.truthy]
          | arr es => simp [hv, hb, JVal.truthy]
  · intro m2 k hm hk
    rcases blobPutMutate_shape m name d with hsh | ⟨v, hsh⟩ | hsh
    · rw [hm] at hsh
      cases hsh
      rfl
    · rw [hm] at hsh
      injection hsh with he
      subst he
      exact alGet_alSet_ne m name k v (fun hnk => hk hnk.symm)
    · rw [hm] at hsh
      cases hsh

/-- C10 witness: at a concrete two-key mapping the mutation leaves the other
top-level key untouched. -/
theorem C10_blob_mutation_amended_witness :
    jGet [("img", JVal.obj [("blobs", .obj [("sha256:d", .str "sha256:d")])]), ("a:b", .str "c")]
        "a:b" =
      jGet [("img", JVal.str "old"), ("a:b", .str "c")] "a:b" :=
  (C10_blob_mutation_amended [("img", .str "old"), ("a:b", .str "c")] "img" "sha256:d").2
    [("img", JVal.obj [("blobs", .obj [("sha256:d", .str "sha256:d")])]), ("a:b", .str "c")]
    "a:b" rfl (by decide)

theorem splitChar_ne_nil (c : Char) (l : List Char) : splitChar c l ≠ [] := by
  induction l with
  | nil => simp [splitChar]
  | cons x xs ih =>
    simp only [splitChar]
    cases h : splitChar c xs with
    | nil => simp
    | cons y ys => by_cases hx : x = c <;> simp [hx]

theorem splitChar_not_mem (c : Char) (l : List Char) (h : c ∉ l) : splitChar c l = [l] := by
  induction l with
  | nil => rfl
  | cons x xs ih =>
    have hx : ¬ x = c := fun he => h (he ▸ List.mem_cons_self x xs)
    have hxs : c ∉ xs := fun hm => h (List.mem_cons_of_mem _ hm)
    simp [splitChar, ih hxs, hx]

theorem splitChar_append (c : Char) (u v : List Char) (hu : c ∉ u) :
    splitChar c (u ++ c :: v) = u :: splitChar c v := by
  induction u with
  | nil =>
    simp only [List.nil_append, splitChar]
    cases h : splitChar c v with
    | nil => exact absurd h (splitChar_ne_nil c v)
    | cons y ys => simp
  | cons x u2 ih =>
    have hx : ¬ x = c := fun he => hu (he ▸ List.mem_cons_self x u2)
    have hu2 : c ∉ u2 := fun hm => hu (List.mem_cons_of_mem _ hm)
    simp [splitChar, ih hu2, hx]

theorem jsSplitColon_two (user pass : String) (hu : ':' ∉ user.data) (hp : ':' ∉ pass.data) :
    jsSplitColon (user ++ ":" ++ pass) = [user, pass] := by
  have hd : (user ++ ":" ++ pass).data = user.data ++ ':' :: pass.data := by
    show (user.data ++ [':']) ++ pass.data = user.data ++ ':' :: pass.data
    simp
  simp [jsSplitColon, hd, splitChar_append _ _ _ hu, splitChar_not_mem _ _ hp, mk_data]

theorem jsSplitColon_colon_end (user : String) (hu : ':' ∉ user.data) :
    jsSplitColon (user ++ ":") = [user, ""] := by
  have hd : (user ++ ":").data = user.data ++ ':' :: [] := rfl
  rw [jsSplitColon, hd, splitChar_append _ _ _ hu]
  simp [splitChar, mk_data]

theorem jsSplitColon_first_two (user seg rest : String) (hu : ':' ∉ user.data)
    (hs : ':' ∉ seg.data) :
    jsSplitColon (user ++ ":" ++ seg ++ ":" ++ rest) =
      user :: seg :: (splitChar ':' rest.data).map String.mk := by
  have hd : (user ++ ":" ++ seg ++ ":" ++ rest).data =
      user.data ++ ':' :: (seg.data ++ ':' :: rest.data) := by
    show (((user.data ++ [':']) ++ seg.data) ++ [':']) ++ rest.data = _
    simp
  rw [jsSplitColon, hd, splitChar_append _ _ _ hu, splitChar_append _ _ _ hs]
  simp [mk_data]

theorem not_basic_bearer (t : String) : jsStartsWith ("Bearer " ++ t) "Basic " = false := by
  have h1 : ("Basic ").data = ['B', 'a', 's', 'i', 'c', ' '] := rfl
  have h2 : ("Bearer " ++ t).data = 'B' :: 'e' :: 'a' :: 'r' :: 'e' :: 'r' :: ' ' :: t.data := rfl
  simp [jsStartsWith, h1, h2, List.isPrefixOf]

theorem jsSubstring_basic (t : String) : jsSubstring ("Basic " ++ t) 6 = t := by
  have h2 : ("Basic " ++ t).data = 'B' :: 'a' :: 's' :: 'i' :: 'c' :: ' ' :: t.data := rfl
  simp [jsSubstring, h2, mk_data]

theorem jsSubstring_bearer (t : String) : jsSubstring ("Bearer " ++ t) 7 = t := by
  have h2 : ("Bearer " ++ t).data = 'B' :: 'e' :: 'a' :: 'r' :: 'e' :: 'r' :: ' ' :: t.data := rfl
  simp [jsSubstring, h2, mk_data]

/-- C8 (amended): credential extraction behaves as claimed except that for
`Basic` headers the private key is the SECOND colon-separated segment of the
decoded value — the text between the first and second colon — rather than
everything after the username separator: for any decoded value
`user:seg:rest` the key is `seg` and the tail `:rest` is dropped, while for a
colon-free password `user:pass` the two readings agree and the key is `pass`;
an empty second segment falls back to the whole decoded value; `Bearer`
tokens and missing or unrecognized headers behave as claimed; and returned
keys are trimmed and `0x`-prefixed. -/
theorem C8_credentials_amended (decodeB64 : String → String)
    (enc tok h user pass seg rest : String) :
    (decodeB64 enc = user ++ ":" ++ seg ++ ":" ++ rest →
        ':' ∉ user.data → ':' ∉ seg.data → ¬ seg = "" →
        extractCredentials decodeB64 (some ("Basic " ++ enc)) =
          some ⟨normalizePrivateKey seg, some user⟩)
    ∧ (decodeB64 enc = user ++ ":" ++ pass → ':' ∉ user.data → ':' ∉ pass.data → pass ≠ "" →
        extractCredentials decodeB64 (some ("Basic " ++ enc)) =
          some ⟨normalizePrivateKey pass, some user⟩)
    ∧ (decodeB64 enc = user ++ ":" → ':' ∉ user.data →
        extractCredentials decodeB64 (some ("Basic " ++ enc)) =
          some ⟨normalizePrivateKey (user ++ ":"), none⟩)
    ∧ extractCredentials decodeB64 (some ("Bearer " ++ tok)) =
        some ⟨normalizePrivateKey tok, none⟩
    ∧ extractCredentials decodeB64 none = none
    ∧ (jsStartsWith h "Basic " = false → jsStartsWith h "Bearer " = false →
        extractCredentials decodeB64 (some h) = none)
    ∧ jsStartsWith (normalizePrivateKey h) "0x" = true := by
  refine ⟨?_, ?_, ?_, ?_, rfl, ?_, ?_⟩
  · intro hdec hu hsg hse
    simp [extractCredentials, jsStartsWith_append, jsSubstring_basic, hdec,
      jsSplitColon_first_two user seg rest hu hsg, hse]
  · intro hdec hu hp hpe
    simp [extractCredentials, jsStartsWith_append, jsSubstring_basic, hdec,
      jsSplitColon_two user pass hu hp, hpe]
  · intro hdec hu
    simp [extractCredentials, jsStartsWith_append, jsSubstring_basic, hdec,
      jsSplitColon_colon_end user hu]
  · simp [extractCredentials, not_basic_bearer, jsStartsWith_append, jsSubstring_bearer]
  · intro h1 h2
    simp [extractCredentials, h1, h2]
  · unfold normalizePrivateKey
    by_cases hb : jsStartsWith (jsTrim h) "0x" = true
    · simp [hb]
    · simp [hb, jsStartsWith_append]

/-- C8 witness: the truncating Basic case of the amended theorem at a
concrete colon-containing password — the decoded value `u:a:b:c` yields the
key `0xa`, dropping the tail after the second colon. -/
theorem C8_credentials_amended_witness :
    extractCredentials (fun _ => "u" ++ ":" ++ "a" ++ ":" ++ "b:c") (some ("Basic " ++ "xx")) =
      some ⟨normalizePrivateKey "a", some "u"⟩ :=
  (C8_credentials_amended (fun _ => "u" ++ ":" ++ "a" ++ ":" ++ "b:c") "xx" "t" "hh" "u" "p"
    "a" "b:c").1 rfl (by decide) (by decide) (by decide)

/-- C4 (amended): the local-fallback-on-remote-failure behavior holds for
blob GETs — with a truthy (non-empty) remote, non-`sha256:` content ref and a
failing remote fetch, the handler serves the local blob file with 200 when it
exists and 404 when it does not — but NOT for manifest GETs, which answer 404
on any remote failure regardless of local copies (a falsy content ref 404s up
front on both paths). -/
theorem C4_local_fallback_amended (sha256hex : List Nat → String)
    (parseJson : List Nat → Option JVal) (remoteFetch : String → Option (List Nat))
    (st : RegState) (name digest reference cid mcid : String) (bytes : List Nat) :
    (getBlobCid st.mappings name digest = some (.str cid) →
     ¬ cid = "" →
     jsStartsWith cid "sha256:" = false →
     remoteFetch cid = none →
     alGet st.blobFiles (jsReplaceOnce digest "sha256:" "") = some bytes →
     blobGet remoteFetch st name digest =
       some (mkResp 200 [("Content-Type", "application/octet-stream"),
         ("Docker-Content-Digest", digest), ("Content-Length", toString bytes.length)]
         (.raw bytes)))
    ∧ (getBlobCid st.mappings name digest = some (.str cid) →
       ¬ cid = "" →
       jsStartsWith cid "sha256:" = false →
       remoteFetch cid = none →
       alGet st.blobFiles (jsReplaceOnce digest "sha256:" "") = none →
       blobGet remoteFetch st name digest =
         some (mkResp 404 [] (jsonError "Failed to fetch blob from IPFS")))
    ∧ (getManifestCid st.mappings name reference = some (.str mcid) →
       ¬ mcid = "" →
       jsStartsWith mcid "sha256:" = false →
       remoteFetch mcid = none →
       manifestGet sha256hex parseJson remoteFetch st name reference =
         some (mkResp 404 [] (jsonError "Failed to fetch manifest from IPFS"))) := by
  refine ⟨?_, ?_, ?_⟩
  · intro h1 h0 h2 h3 h4
    simp [blobGet, JVal.truthy, h1, h0, h2, h3, h4]
  · intro h1 h0 h2 h3 h4
    simp [blobGet, JVal.truthy, h1, h0, h2, h3, h4]
  · intro h1 h0 h2 h3
    simp [manifestGet, JVal.truthy, h1, h0, h2, h3]

/-- C4 witness: the amended theorem applied at a concrete state with a remote
blob ref, an unreachable gateway, and a present local copy. -/
theorem C4_local_fallback_amended_witness :
    blobGet (fun _ => none)
        ⟨[("img", .obj [("blobs", .obj [("sha256:ab", .str "bafyB")])])], [], [("ab", [5])], []⟩
        "img" "sha256:ab" =
      some (mkResp 200 [("Content-Type", "application/octet-stream"),
        ("Docker-Content-Digest", "sha256:ab"), ("Content-Length", toString [5].length)]
        (.raw [5])) :=
  (C4_local_fallback_amended (fun _ => "aa") (fun _ => some (.obj [])) (fun _ => none)
      ⟨[("img", .obj [("blobs", .obj [("sha256:ab", .str "bafyB")])])], [], [("ab", [5])], []⟩
      "img" "sha256:ab" "tag" "bafyB" "bafyB" [5]).1 rfl (by decide) rfl rfl rfl

/-- Whether a present `blobs` field lets the blob-PUT mutation record the
digest: an object, or any falsy value (which the mutation resets). -/
def blobsFieldOk (bv : JVal) : Bool :=
  if bv.truthy then
    match bv with
    | .obj _ => true
    | _ => false
  else true

/-- Mapping states on which the blob-PUT mutation actually records the blob:
the image key is absent, falsy, a bare string, or an object whose `blobs`
field is an object (or falsy). -/
def BlobsWellShaped (m : JObj) (name : String) : Bool :=
  match jGet m name with
  | none => true
  | some (.str _) => true
  | some (.num n) => n == 0
  | some (.bool b) => !b
  | some .null => true
  | some (.arr _) => false
  | some (.obj fs) =>
    match jGet fs "blobs" with
    | none => false
    | some bv => blobsFieldOk bv

theorem blobPutMutate_wellshaped (m : JObj) (name d : String)
    (h : BlobsWellShaped m name = true) :
    ∃ m2, blobPutMutate m name d = some m2 ∧ getBlobCid m2 name d = some (.str d) := by
  unfold BlobsWellShaped at h
  unfold blobPutMutate
  cases hv : jGet m name with
  | none =>
    refine ⟨jSet m name (.obj [("blobs", .obj [(d, .str d)])]), ?_, ?_⟩
    · simp [hv, alGet_alSet_self, alSet_alSet, jGet, jSet, JVal.truthy, alGet, alSet]
    · simp [getBlobCid, jGet, jSet, alGet_alSet_self, JVal.truthy, alGet, alSet]
  | some v =>
    rw [hv] at h
    cases v with
    | str s =>
      refine ⟨jSet m name (.obj [("blobs", .obj [(d, .str d)])]), ?_, ?_⟩
      · simp [hv, alGet_alSet_self, alSet_alSet, jGet, jSet, JVal.truthy, alGet, alSet]
      · simp [getBlobCid, jGet, jSet, alGet_alSet_self, JVal.truthy, alGet, alSet]
    | num n =>
      have hn : n = 0 := by simpa using h
      refine ⟨jSet m name (.obj [("blobs", .obj [(d, .str d)])]), ?_, ?_⟩
      · simp [hv, hn, alGet_alSet_self, alSet_alSet, jGet, jSet, JVal.truthy, alGet, alSet]
      · simp [getBlobCid, jGet, jSet, alGet_alSet_self, JVal.truthy, alGet, alSet]
    | bool b =>
      have hb : b = false := by simpa using h
      subst hb
      refine ⟨jSet m name (.obj [("blobs", .obj [(d, .str d)])]), ?_, ?_⟩
      · simp [hv, alGet_alSet_self, alSet_alSet, jGet, jSet, JVal.truthy, alGet, alSet]
      · simp [getBlobCid, jGet, jSet, alGet_alSet_self, JVal.truthy, alGet, alSet]
    | null =>
      refine ⟨jSet m name (.obj [("blobs", .obj [(d, .str d)])]), ?_, ?_⟩
      · simp [hv, alGet_alSet_self, alSet_alSet, jGet, jSet, JVal.truthy, alGet, alSet]
      · simp [getBlobCid, jGet, jSet, alGet_alSet_self, JVal.truthy, alGet, alSet]
    | arr es => simp at h
    | obj fs =>
      have htr : (JVal.obj fs).truthy = true := rfl
      have h2 : (match jGet fs "blobs" with
          | none => false
          | some bv => blobsFieldOk bv) = true := h
      cases hb : jGet fs "blobs" with
      | none =>
        rw [hb] at h2
        simp at h2
      | some bv =>
        rw [hb] at h2
        cases hbt : bv.truthy
        · refine ⟨jSet m name (.obj (jSet fs "blobs" (.obj [(d, .str d)]))), ?_, ?_⟩
          · simp [hv, htr, hb, hbt]
          · simp [getBlobCid, jGet, jSet, alGet_alSet_self, JVal.truthy, alGet, alSet]
        · cases bv with
          | obj bs =>
            refine ⟨jSet m name (.obj (jSet fs "blobs" (.obj (jSet bs d (.str d))))), ?_, ?_⟩
            · simp [hv, htr, hb, hbt]
            · simp [getBlobCid, jGet, jSet, alGet_alSet_self, JVal.truthy]
          | str s =>
            simp [blobsFieldOk, JVal.truthy] at h2 hbt
            exact absurd h2 hbt
          | num n =>
            simp [blobsFieldOk, JVal.truthy] at h2 hbt
            exact absurd h2 hbt
          | bool b =>
            simp [JVal.truthy] at hbt
            subst hbt
            simp [blobsFieldOk, JVal.truthy] at h2
          | null => simp [JVal.truthy] at hbt
          | arr es => simp [blobsFieldOk, JVal.truthy] at h2

/-- The digest canonical form is never the empty string. -/
theorem computeDigest_ne_empty (f : List Nat → String) (b : List Nat) :
    ¬ computeDigest f b = "" := by
  intro he
  have hdd : 's' :: 'h' :: 'a' :: '2' :: '5' :: '6' :: ':' :: (f b).data = ([] : List Char) :=
    congrArg String.data he
  simp at hdd

/-- The state after a sequence of PATCH requests against one upload id. -/
def applyPatches (name uploadId : String) : RegState → List (List Nat) → RegState
  | st, [] => st
  | st, c :: cs => applyPatches name uploadId (blobUploadPatch st name uploadId c).2 cs

theorem applyPatches_state (name uploadId : String) (chunks : List (List Nat)) :
    ∀ (st : RegState) (s : UploadSession),
      alGet st.sessions uploadId = some s →
      (∀ c ∈ chunks, c ≠ []) →
      alGet (applyPatches name uploadId st chunks).sessions uploadId =
        some ⟨s.uploadId, s.name, s.chunks ++ chunks, s.size + (chunks.map List.length).sum⟩
      ∧ (applyPatches name uploadId st chunks).mappings = st.mappings
      ∧ (applyPatches name uploadId st chunks).blobFiles = st.blobFiles
      ∧ (applyPatches name uploadId st chunks).manifestFiles = st.manifestFiles := by
  induction chunks with
  | nil =>
    intro st s hs hne
    refine ⟨?_, rfl, rfl, rfl⟩
    simpa using hs
  | cons c cs ih =>
    intro st s hs hne
    have hc : c ≠ [] := hne c (List.mem_cons_self c cs)
    have hcs : ∀ x ∈ cs, x ≠ [] := fun x hx => hne x (List.mem_cons_of_mem c hx)
    have hpatch : (blobUploadPatch st name uploadId c).2 =
        { st with sessions := (alSet st.sessions uploadId
            (UploadSession.mk s.uploadId s.name (s.chunks ++ [c]) (s.size + c.length))) } := by
      unfold blobUploadPatch appendChunkSt
      simp [hc, hs, alGet_alSet_self]
    rw [show applyPatches name uploadId st (c :: cs) =
        applyPatches name uploadId (blobUploadPatch st name uploadId c).2 cs from rfl, hpatch]
    obtain ⟨h1, h2, h3, h4⟩ := ih
      { st with sessions := (alSet st.sessions uploadId
          (UploadSession.mk s.uploadId s.name (s.chunks ++ [c]) (s.size + c.length))) }
      (UploadSession.mk s.uploadId s.name (s.chunks ++ [c]) (s.size + c.length))
      (alGet_alSet_self st.sessions uploadId
        (UploadSession.mk s.uploadId s.name (s.chunks ++ [c]) (s.size + c.length))) hcs
    refine ⟨?_, h2, h3, h4⟩
    rw [h1]
    simp [List.append_assoc, Nat.add_assoc]

theorem blobUploadPut_success (sha256hex : List Nat → String)
    (computeCid : List Nat → Except String String) (st : RegState)
    (name uploadId d : String) (putBody : List Nat) (s : UploadSession) (c : String) (m2 : JObj)
    (hs : alGet st.sessions uploadId = some s)
    (hd : d = computeDigest sha256hex (s.chunks.flatten ++ putBody))
    (hcid : computeCid (s.chunks.flatten ++ putBody) = .ok c)
    (hmut : blobPutMutate st.mappings name d = some m2) :
    blobUploadPut sha256hex computeCid st name uploadId (some d) putBody =
      .respond (mkResp 201 [("Location", "/v2/" ++ name ++ "/blobs/" ++ d),
        ("Docker-Content-Digest", d), ("Content-Length", "0")] .empty)
      { mappings := m2,
        sessions := alDel (if putBody = [] then st.sessions else alSet st.sessions uploadId
          ⟨s.uploadId, s.name, s.chunks ++ [putBody], s.size + putBody.length⟩) uploadId,
        blobFiles := alSet st.blobFiles (jsReplaceOnce d "sha256:" "")
          (s.chunks.flatten ++ putBody),
        manifestFiles := st.manifestFiles } := by
  have hdne : ¬ d = "" := hd ▸ computeDigest_ne_empty sha256hex _
  subst hd
  by_cases hpb : putBody = []
  · subst hpb
    simp only [List.append_nil] at hdne hcid hmut ⊢
    unfold blobUploadPut appendChunkSt completeUploadSt
    simp [hdne, hs, hcid, hmut, alGet_alSet_self]
  · unfold blobUploadPut appendChunkSt completeUploadSt
    simp [hdne, hpb, hs, alGet_alSet_self, hcid, hmut, List.flatten_append]

/-- C3: for every upload sequence `POST; PATCH×n; PUT?digest=d` with non-empty
chunks, if `d` equals the digest of the concatenation of all appended chunks
(including any non-empty PUT body) and the mapping is in a shape the mutation
handles, the PUT answers 201 with `Docker-Content-Digest = d` and
`Location = /v2/<name>/blobs/<d>`, and a subsequent GET of that blob answers
200 with exactly the uploaded bytes. -/
theorem C3_upload_roundtrip (sha256hex : List Nat → String)
    (computeCid : List Nat → Except String String) (remoteFetch : String → Option (List Nat))
    (st : RegState) (name uploadId d : String) (chunks : List (List Nat)) (putBody : List Nat)
    (c : String)
    (hne : ∀ ch ∈ chunks, ch ≠ [])
    (hd : d = computeDigest sha256hex (chunks.flatten ++ putBody))
    (hcid : computeCid (chunks.flatten ++ putBody) = .ok c)
    (hws : BlobsWellShaped st.mappings name = true) :
    ∃ stF,
      blobUploadPut sha256hex computeCid
          (applyPatches name uploadId (blobUploadPost st name uploadId).2 chunks)
          name uploadId (some d) putBody =
        .respond (mkResp 201 [("Location", "/v2/" ++ name ++ "/blobs/" ++ d),
          ("Docker-Content-Digest", d), ("Content-Length", "0")] .empty) stF
      ∧ blobGet remoteFetch stF name d =
          some (mkResp 200 [("Content-Type", "application/octet-stream"),
            ("Docker-Content-Digest", d),
            ("Content-Length", toString (chunks.flatten ++ putBody).length)]
            (.raw (chunks.flatten ++ putBody))) := by
  have hsess1 : alGet (blobUploadPost st name uploadId).2.sessions uploadId =
      some ⟨uploadId, name, [], 0⟩ := alGet_alSet_self ..
  obtain ⟨hS, hM, hB, hMan⟩ := applyPatches_state name uploadId chunks
    (blobUploadPost st name uploadId).2 ⟨uploadId, name, [], 0⟩ hsess1 hne
  have hS2 : alGet (applyPatches name uploadId (blobUploadPost st name uploadId).2
        chunks).sessions uploadId =
      some ⟨uploadId, name, chunks, (chunks.map List.length).sum⟩ := by simpa using hS
  have hM2 : (applyPatches name uploadId (blobUploadPost st name uploadId).2 chunks).mappings =
      st.mappings := hM
  obtain ⟨m2, hmut, hblob⟩ := blobPutMutate_wellshaped st.mappings name d hws
  have hput := blobUploadPut_success sha256hex computeCid
    (applyPatches name uploadId (blobUploadPost st name uploadId).2 chunks)
    name uploadId d putBody ⟨uploadId, name, chunks, (chunks.map List.length).sum⟩ c m2
    hS2 hd hcid (by rw [hM2]; exact hmut)
  refine ⟨_, hput, ?_⟩
  have hpre : jsStartsWith d "sha256:" = true := by
    rw [hd]
    exact jsStartsWith_append "sha256:" (sha256hex (chunks.flatten ++ putBody))
  have hdne : ¬ d = "" := hd ▸ computeDigest_ne_empty sha256hex _
  simp [blobGet, JVal.truthy, hM2, hblob, hpre, hdne, alGet_alSet_self]

/-- C3 witness: the round-trip theorem at a concrete upload — two PATCH
chunks, a non-empty PUT body, and the matching digest. -/
theorem C3_upload_roundtrip_witness :
    ∃ stF,
      blobUploadPut (fun _ => "aa") (fun _ => .ok "bafyZ")
          (applyPatches "img" "u" (blobUploadPost ⟨[], [], [], []⟩ "img" "u").2 [[1], [2]])
          "img" "u" (some "sha256:aa") [3] =
        .respond (mkResp 201 [("Location", "/v2/" ++ "img" ++ "/blobs/" ++ "sha256:aa"),
          ("Docker-Content-Digest", "sha256:aa"), ("Content-Length", "0")] .empty) stF
      ∧ blobGet (fun _ => none) stF "img" "sha256:aa" =
          some (mkResp 200 [("Content-Type", "application/octet-stream"),
            ("Docker-Content-Digest", "sha256:aa"),
            ("Content-Length", toString ([[1], [2]].flatten ++ [3]).length)]
            (.raw ([[1], [2]].flatten ++ [3]))) :=
  C3_upload_roundtrip (fun _ => "aa") (fun _ => .ok "bafyZ") (fun _ => none) ⟨[], [], [], []⟩
    "img" "u" "sha256:aa" [[1], [2]] [3] "bafyZ" (by decide) rfl rfl rfl

end Pincer
